import Mathlib

set_option maxHeartbeats 1000000

/-!
Shallow embedding of `singer/messages.py` (pipelinewise-singer-python).

Python values flowing through the message layer are modelled by the mutual
inductive `JVal` (JSON-compatible values plus the two non-JSON types the code
manipulates: `decimal.Decimal`, modelled as an exact rational, and `bytes`).
Python `None` is `JVal.null`; an *absent* optional argument or dict key is
`Option.none` at the use sites (note `dict.get` returns Python `None` both for
an absent key and for a JSON null value, so optional fields collapse the two).

Python dicts are association lists (`JObj`) with string keys; the dicts this
code builds and the dicts produced by `orjson.loads` have unique keys, and
`olookup` is first-match lookup.
-/

namespace Singer

mutual

inductive JVal : Type where
  | null : JVal
  | bool (b : Bool) : JVal
  | int (n : Int) : JVal
  | float (q : ℚ) : JVal
  | dec (q : ℚ) : JVal
  | str (s : String) : JVal
  | pbytes (s : String) : JVal
  | arr (l : JArr) : JVal
  | obj (o : JObj) : JVal

inductive JArr : Type where
  | nil : JArr
  | cons (v : JVal) (tl : JArr) : JArr

inductive JObj : Type where
  | onil : JObj
  | ocons (k : String) (v : JVal) (tl : JObj) : JObj

end

/-- First-match lookup in an association list (Python `k in d` / `d[k]` /
`d.get(k)` on the unique-keyed dicts this code handles). -/
def olookup (k : String) : JObj → Option JVal
  | .onil => none
  | .ocons k' v tl => if k = k' then some v else olookup k tl

/-- Python truthiness of the modelled values (`if x:`). -/
def jtruthy : JVal → Bool
  | .null => false
  | .bool b => b
  | .int n => n != 0
  | .float q => q != 0
  | .dec q => q != 0
  | .str s => s != ""
  | .pbytes s => s != ""
  | .arr .nil => false
  | .arr (.cons _ _) => true
  | .obj .onil => false
  | .obj (.ocons _ _ _) => true

def JVal.isArr : JVal → Bool
  | .arr _ => true
  | _ => false

def JVal.isStr : JVal → Bool
  | .str _ => true
  | _ => false

/-- A `time_extracted` value as stored on a message object: either a Python
`datetime` (naive or aware; for an aware datetime only the UTC instant matters
to this code, kept as a microsecond count), or any other raw value that was
passed through (`raw`) — the parser forwards falsy raw wire values unchanged. -/
inductive TimeVal : Type where
  | dt (naive : Bool) (micros : Nat) : TimeVal
  | raw (j : JVal) : TimeVal

/-- Python truthiness of a stored `time_extracted` (datetimes are always
truthy). -/
def tTruthy : TimeVal → Bool
  | .dt _ _ => true
  | .raw j => jtruthy j

/-- The five message variants, with fields as stored after `__init__` runs. -/
inductive Message : Type where
  | record (stream rc : JVal) (version : Option JVal) (time_extracted : Option TimeVal) : Message
  | schema (stream sch key_properties : JVal) (bookmark_properties : Option JVal) : Message
  | state (value : JVal) : Message
  | activate (stream version : JVal) : Message
  | batch (stream filepath fmt : JVal) (compression batch_size : Option JVal)
      (time_extracted : Option TimeVal) : Message

/-- Errors raised by this layer: `missingKey` is `_required_key`'s exception
(it carries the field name and the offending object, as the Python message
string does); `naiveTime` is the `ValueError` for a naive `time_extracted`;
`attrError` the `AttributeError` from `.tzinfo` on a truthy non-datetime;
`badBookmark` / `badKeyProps` the two `Exception('... must be a string or
list of strings')` raises. -/
inductive MErr : Type where
  | missingKey (k : String) (o : JObj) : MErr
  | naiveTime : MErr
  | attrError : MErr
  | badBookmark : MErr
  | badKeyProps : MErr

deriving instance DecidableEq for JVal, JArr, JObj
deriving instance DecidableEq for TimeVal
deriving instance DecidableEq for Message
deriving instance DecidableEq for MErr

/-! ## Timestamp rendering and parsing

`singer.utils.strftime` is code of this repository that is not under `src/`,
and `ciso8601.parse_datetime` is an external collaborator.

Modelled from the spec: "Timestamps are always normalized to UTC before
encoding and rendered in a fixed textual format ... the Parser must accept
this exact format as a round-trip guarantee."  The fixed textual format is
modelled as the decimal digits of the UTC microsecond count followed by the
explicit UTC designator `Z`; the parser accepts that exact format (aware) and
the same digits without the designator (a parseable but naive timestamp,
mirroring `ciso8601.parse_datetime` on strings lacking an offset), and fails
on everything else. -/

def natDigitsAux : Nat → Nat → List Char
  | 0, _ => []
  | f + 1, n =>
    if n < 10 then [Char.ofNat (48 + n)]
    else natDigitsAux f (n / 10) ++ [Char.ofNat (48 + n % 10)]

def natDigits (n : Nat) : List Char := natDigitsAux (n + 1) n

/-- Modelled from the spec: `singer.utils.strftime` (not under `src/`) —
fixed-format rendering of a UTC instant with an explicit UTC designator. -/
def strftime (micros : Nat) : String := String.mk (natDigits micros ++ ['Z'])

def tsAux : Nat → Bool → List Char → Option TimeVal
  | acc, seen, [] => if seen then some (.dt true acc) else none
  | acc, seen, c :: rest =>
    if c.isDigit then tsAux (acc * 10 + (c.toNat - 48)) true rest
    else if c = 'Z' ∧ rest = [] then (if seen then some (.dt false acc) else none)
    else none

/-- Modelled from the spec: `ciso8601.parse_datetime` (external collaborator)
restricted to the modelled textual format; a trailing `Z` yields an aware
datetime, bare digits a naive one, anything else a parse failure. -/
def ciso8601_parse (s : String) : Option TimeVal := tsAux 0 false s.data

/-! ## Message constructors (`__init__` of each variant) -/

/-- `RecordMessage.__init__`: stores the fields, then
`if time_extracted and not time_extracted.tzinfo: raise ValueError`.
A truthy non-datetime raises `AttributeError` at `.tzinfo`; a falsy
non-datetime (e.g. `''`) short-circuits the `and` and is stored unchanged. -/
def RecordMessage (stream rc : JVal) (version : Option JVal)
    (time_extracted : Option TimeVal) : Except MErr Message :=
  match time_extracted with
  | some (.dt true _) => .error .naiveTime
  | some (.raw j) =>
    if jtruthy j then .error .attrError
    else .ok (.record stream rc version time_extracted)
  | _ => .ok (.record stream rc version time_extracted)

/-- The `isinstance(bookmark_properties, (str, bytes))` wrap into a
one-element list. -/
def normBp : Option JVal → Option JVal
  | some (.str s) => some (JVal.arr (.cons (.str s) .nil))
  | some (.pbytes b) => some (JVal.arr (.cons (.pbytes b) .nil))
  | x => x

/-- The `if bookmark_properties and not isinstance(bookmark_properties, list)`
rejection (truthy non-list). -/
def bpReject : Option JVal → Bool
  | some j => jtruthy j && !j.isArr
  | none => false

/-- `SchemaMessage.__init__`: wraps a bare `str`/`bytes` `bookmark_properties`
into a one-element list, then rejects any remaining truthy non-list; and
stores `key_properties` with no validation at all. -/
def SchemaMessage (stream sch key_properties : JVal) (bookmark_properties : Option JVal) :
    Except MErr Message :=
  let bp := normBp bookmark_properties
  if bpReject bp then .error .badBookmark
  else .ok (.schema stream sch key_properties bp)

/-- `StateMessage.__init__`: no validation. -/
def StateMessage (value : JVal) : Message := .state value

/-- `ActivateVersionMessage.__init__`: no validation. -/
def ActivateVersionMessage (stream version : JVal) : Message := .activate stream version

/-- `BatchMessage.__init__`: `self.format = file_format or 'jsonl'` (any falsy
`file_format`, including absence, `None` and `''`, defaults to `'jsonl'`),
then the same `time_extracted` check as `RecordMessage`. -/
def BatchMessage (stream filepath : JVal) (file_format : Option JVal)
    (compression batch_size : Option JVal) (time_extracted : Option TimeVal) :
    Except MErr Message :=
  let fmt :=
    match file_format with
    | some j => if jtruthy j then j else .str "jsonl"
    | none => JVal.str "jsonl"
  match time_extracted with
  | some (.dt true _) => .error .naiveTime
  | some (.raw j) =>
    if jtruthy j then .error .attrError
    else .ok (.batch stream filepath fmt compression batch_size time_extracted)
  | _ => .ok (.batch stream filepath fmt compression batch_size time_extracted)

/-! ## `asdict` — the canonical mapping -/

def oappend : JObj → JObj → JObj
  | .onil, o => o
  | .ocons k v tl, o => .ocons k v (oappend tl o)

/-- The `if self.x is not None: result['x'] = self.x` pattern. -/
def optPart (k : String) : Option JVal → JObj
  | some j => .ocons k j .onil
  | none => .onil

/-- The `if self.version is not None` part of `RecordMessage.asdict`. -/
def verPart (ver : Option JVal) : JObj := optPart "version" ver

/-- The `if self.time_extracted: result['time_extracted'] = strftime(...)`
pattern.  A stored truthy raw value is unreachable for a constructed message
(the constructor raised `AttributeError`); a falsy one is omitted, like the
Python truthiness test does. -/
def tePart : Option TimeVal → JObj
  | some (.dt _ m) => .ocons "time_extracted" (.str (strftime m)) .onil
  | some (.raw _) => .onil
  | none => .onil

/-- The `if self.bookmark_properties:` (truthiness!) part of
`SchemaMessage.asdict`. -/
def bpPart : Option JVal → JObj
  | some j => if jtruthy j then .ocons "bookmark_properties" j .onil else .onil
  | none => .onil

/-- `Message.asdict` of each variant, with the exact key order and
presence conditions of the source. -/
def asdict : Message → JObj
  | .record st rc ver te =>
    .ocons "type" (.str "RECORD") (.ocons "stream" st
      (.ocons "record" rc (oappend (verPart ver) (tePart te))))
  | .schema st sch kp bp =>
    .ocons "type" (.str "SCHEMA") (.ocons "stream" st
      (.ocons "schema" sch (.ocons "key_properties" kp (bpPart bp))))
  | .state v => .ocons "type" (.str "STATE") (.ocons "value" v .onil)
  | .activate st ver =>
    .ocons "type" (.str "ACTIVATE_VERSION") (.ocons "stream" st (.ocons "version" ver .onil))
  | .batch st fp fmt comp bs te =>
    .ocons "type" (.str "BATCH") (.ocons "stream" st (.ocons "filepath" fp
      (.ocons "format" fmt (oappend (optPart "compression" comp)
        (oappend (optPart "batch_size" bs) (tePart te))))))

/-! ## `parse_message` -/

/-- `_required_key(msg, k)`: raises an exception naming `k` and showing the
offending object when the key is absent. -/
def reqKey (o : JObj) (k : String) : Except MErr JVal :=
  match olookup k o with
  | some v => .ok v
  | none => .error (.missingKey k o)

/-- `obj.get(k)`: Python returns `None` both for an absent key and for a JSON
null value, so the two collapse. -/
def pyGet (o : JObj) (k : String) : Option JVal :=
  match olookup k o with
  | some v => if v = JVal.null then none else some v
  | none => none

/-- The shared `time_extracted` pre-processing of the RECORD and BATCH parse
branches: a truthy value is handed to `ciso8601.parse_datetime` (a non-string
raises `TypeError`, caught like a parse failure); on failure a warning is
logged (counted in the second component) and the value becomes absent; a
falsy value skips all of this and is forwarded unchanged. -/
def procTime (o : JObj) : Option TimeVal × Nat :=
  match pyGet o "time_extracted" with
  | none => (none, 0)
  | some j =>
    if jtruthy j then
      match j with
      | .str s =>
        match ciso8601_parse s with
        | some tv => (some tv, 0)
        | none => (none, 1)
      | _ => (none, 1)
    else (some (.raw j), 0)

/-- `parse_message`, with `orjson.loads` (an external collaborator) collapsed:
the function takes the decoded top-level JSON object.  The second component
counts the warnings emitted through the logging collaborator. -/
def parse_message (o : JObj) : Except MErr (Option Message) × Nat :=
  match reqKey o "type" with
  | .error e => (.error e, 0)
  | .ok t =>
    if t = .str "RECORD" then
      let p := procTime o
      ((do
        let st ← reqKey o "stream"
        let rc ← reqKey o "record"
        let m ← RecordMessage st rc (pyGet o "version") p.1
        pure (some m)), p.2)
    else if t = .str "SCHEMA" then
      ((do
        let st ← reqKey o "stream"
        let sch ← reqKey o "schema"
        let kp ← reqKey o "key_properties"
        let m ← SchemaMessage st sch kp (pyGet o "bookmark_properties")
        pure (some m)), 0)
    else if t = .str "STATE" then
      ((do
        let v ← reqKey o "value"
        pure (some (StateMessage v))), 0)
    else if t = .str "ACTIVATE_VERSION" then
      ((do
        let st ← reqKey o "stream"
        let ver ← reqKey o "version"
        pure (some (ActivateVersionMessage st ver))), 0)
    else if t = .str "BATCH" then
      let p := procTime o
      ((do
        let st ← reqKey o "stream"
        let fp ← reqKey o "filepath"
        let ff ← reqKey o "format"
        let m ← BatchMessage st fp (some ff) (pyGet o "compression") (pyGet o "batch_size") p.1
        pure (some m)), p.2)
    else (.ok none, 0)

/-! ## `format_message` — the encoder

`orjson.dumps` (external collaborator) serializes JSON-native values; the
`default` hook in `format_message` converts a `decimal.Decimal` to
`int(obj) if float(obj).is_integer() else float(obj)` and raises `TypeError`
for anything else (e.g. `bytes`).  `orjson` itself rejects integers outside
the 64-bit range.  `orjson.loads ∘ orjson.dumps` is the identity on the
JSON-native values it accepts, so the encoder is modelled as a `JVal → JVal`
normalization that can fail. -/

/-- Floor of a rational (`Int.fdiv` is Python's floor division). -/
def rfloor (q : ℚ) : Int := q.num.fdiv (q.den : Int)

/-- Round a rational to the nearest integer, ties to even (IEEE-754 default
rounding, as used by CPython's exact Decimal→float conversion).  Written with
core primitives (`mkRat 1 2` is the literal one half) so that it evaluates
inside the kernel. -/
def rhe (q : ℚ) : Int :=
  let n := rfloor q
  let fr := q - (n : ℚ)
  if fr < mkRat 1 2 then n
  else if mkRat 1 2 < fr then n + 1
  else if n % 2 = 0 then n else n + 1

/-- Largest `e` with `2 ^ e ≤ q`, for `1 ≤ q`, by fuelled halving. -/
def expUp : Nat → ℚ → Int
  | 0, _ => 0
  | f + 1, q => if q < mkRat 2 1 then 0 else expUp f (q / mkRat 2 1) + 1

/-- Largest `e` with `2 ^ e ≤ q`, for `0 < q < 1`, by fuelled doubling. -/
def expDown : Nat → ℚ → Int
  | 0, _ => 0
  | f + 1, q => if mkRat 1 1 ≤ q then 0 else expDown f (mkRat 2 1 * q) - 1

/-- Binary exponent of a positive rational (fuel 1200 covers the double
range and every value in this development). -/
def exp2 (q : ℚ) : Int := if mkRat 1 1 ≤ q then expUp 1200 q else expDown 1200 q

/-- `(2 : ℚ) ^ (e : ℤ)`, written with kernel-reducible primitives. -/
def pow2 (e : ℤ) : ℚ :=
  if 0 ≤ e then mkRat (Int.ofNat (Nat.pow 2 e.toNat)) 1 else mkRat 1 (Nat.pow 2 (-e).toNat)

/-- `|q|`, written with kernel-reducible primitives. -/
def rabs (q : ℚ) : ℚ := if q < 0 then -q else q

/-- `float(q)`: the IEEE-754 binary64 value nearest to the exact rational `q`
(round to nearest, ties to even), as an exact rational.  Overflow to infinity
(beyond the binary64 range) is not modelled. -/
def float64 (q : ℚ) : ℚ :=
  if q = 0 then 0
  else
    let a := rabs q
    let e := exp2 a
    let scale : ℚ := pow2 (e - 52)
    let m := rhe (a / scale)
    (if q < 0 then -(m : ℚ) else (m : ℚ)) * scale

/-- `int(q)` on an exact Decimal value: truncation toward zero. -/
def pyTrunc (q : ℚ) : Int := q.num.tdiv (q.den : Int)

/-- The `default` hook of `format_message` on a `decimal.Decimal` value:
`int(obj) if float(obj).is_integer() else float(obj)`. -/
def defaultEnc (q : ℚ) : JVal :=
  if (float64 q).den = 1 then .int (pyTrunc q) else .float (float64 q)

/-- `orjson`'s 64-bit integer range: `-2 ^ 63 ≤ n < 2 ^ 64` (`i64` or `u64`),
with the bounds as plain literals. -/
def inBounds (n : Int) : Bool :=
  (-9223372036854775808 ≤ n : Bool) && (n < 18446744073709551616 : Bool)

def encDec (q : ℚ) : Except Unit JVal :=
  match defaultEnc q with
  | .int n => if inBounds n then .ok (.int n) else .error ()
  | v => .ok v

mutual

/-- The value normalization performed by `orjson.dumps` with
`format_message`'s `default` hook: JSON-native values pass through,
decimals become integers or floats, `bytes` raise, out-of-range integers
raise. -/
def encV : JVal → Except Unit JVal
  | .null => .ok .null
  | .bool b => .ok (.bool b)
  | .int n => if inBounds n then .ok (.int n) else .error ()
  | .float q => .ok (.float q)
  | .dec q => encDec q
  | .str s => .ok (.str s)
  | .pbytes _ => .error ()
  | .arr l => do pure (.arr (← encA l))
  | .obj o => do pure (.obj (← encO o))

def encA : JArr → Except Unit JArr
  | .nil => .ok .nil
  | .cons v tl => do pure (.cons (← encV v) (← encA tl))

def encO : JObj → Except Unit JObj
  | .onil => .ok .onil
  | .ocons k v tl => do pure (.ocons k (← encV v) (← encO tl))

end

/-- `format_message`: serialize `message.asdict()`.  With
`orjson.loads ∘ orjson.dumps` collapsed to the identity, the result is the
normalized canonical mapping (or an encoding error). -/
def format_message (m : Message) : Except Unit JObj := encO (asdict m)

/-! ## `write_schema` (validation part; the stdout sink is out of scope) -/

/-- `stream_alias or stream_name`. -/
def streamOr (al : Option JVal) (name : JVal) : JVal :=
  match al with
  | some a => if jtruthy a then a else name
  | none => name

/-- `write_schema`: wraps a bare `str`/`bytes` `key_properties` into a
one-element list, raises for any other non-list, then constructs the
`SchemaMessage` it would write. -/
def write_schema (stream_name sch key_properties : JVal)
    (bookmark_properties : Option JVal) (stream_alias : Option JVal) :
    Except MErr Message :=
  match key_properties with
  | .str s =>
    SchemaMessage (streamOr stream_alias stream_name) sch
      (.arr (.cons (.str s) .nil)) bookmark_properties
  | .pbytes b =>
    SchemaMessage (streamOr stream_alias stream_name) sch
      (.arr (.cons (.pbytes b) .nil)) bookmark_properties
  | .arr l =>
    SchemaMessage (streamOr stream_alias stream_name) sch (.arr l) bookmark_properties
  | _ => .error .badKeyProps

/-! ## Structural equality (`Message.__eq__`: `self.asdict() == other.asdict()`)

Python `==` on the canonical mappings compares numbers by value across
`bool`/`int`/`float`/`Decimal` and containers element-wise.  Dict comparison
is key-set based; `asdict` emits a fixed key order per variant and field
presence, so the order-sensitive pointwise comparison below coincides with it
on canonical mappings. -/

/-- The exact numeric value of a Python number (`bool` is an `int` subclass:
`True == 1`). -/
def numVal : JVal → Option ℚ
  | .bool b => some (if b then 1 else 0)
  | .int n => some (n : ℚ)
  | .float q => some q
  | .dec q => some q
  | _ => none

mutual

def jeqb : JVal → JVal → Bool
  | .arr l, .arr l' => jeqbA l l'
  | .obj o, .obj o' => jeqbO o o'
  | .null, .null => true
  | .str s, .str s' => decide (s = s')
  | .pbytes s, .pbytes s' => decide (s = s')
  | a, b =>
    match numVal a, numVal b with
    | some x, some y => decide (x = y)
    | _, _ => false

def jeqbA : JArr → JArr → Bool
  | .nil, .nil => true
  | .cons v tl, .cons v' tl' => jeqb v v' && jeqbA tl tl'
  | _, _ => false

def jeqbO : JObj → JObj → Bool
  | .onil, .onil => true
  | .ocons k v tl, .ocons k' v' tl' => decide (k = k') && jeqb v v' && jeqbO tl tl'
  | _, _ => false

end

/-- `Message.__eq__`: equality of the canonical mappings. -/
def msgEq (a b : Message) : Bool := jeqbO (asdict a) (asdict b)

/-! ## Well-formedness predicates for the round-trip theorem -/

mutual

/-- JSON-native values: no `Decimal`, no `bytes`, integers within `orjson`'s
64-bit range. -/
def wfV : JVal → Bool
  | .dec _ => false
  | .pbytes _ => false
  | .int n => inBounds n
  | .arr l => wfA l
  | .obj o => wfO o
  | _ => true

def wfA : JArr → Bool
  | .nil => true
  | .cons v tl => wfV v && wfA tl

def wfO : JObj → Bool
  | .onil => true
  | .ocons _ v tl => wfV v && wfO tl

end

def wfOpt : Option JVal → Bool
  | some j => wfV j
  | none => true

/-- All payload values of the message are JSON-native. -/
def wfMsg : Message → Bool
  | .record st rc ver _ => wfV st && wfV rc && wfOpt ver
  | .schema st sch kp bp => wfV st && wfV sch && wfV kp && wfOpt bp
  | .state v => wfV v
  | .activate st ver => wfV st && wfV ver
  | .batch st fp fmt comp bs _ => wfV st && wfV fp && wfV fmt && wfOpt comp && wfOpt bs

/-- An optional field holding Python `None` is represented as `Option.none`,
never as `some JVal.null`. -/
def optNotNull : Option JVal → Bool
  | some v => !(v = JVal.null : Bool)
  | none => true

/-- The `time_extracted` states a constructed message can hold: absent, an
aware datetime, or a forwarded falsy raw value. -/
def teOK : Option TimeVal → Bool
  | none => true
  | some (.dt naive _) => !naive
  | some (.raw j) => !jtruthy j && !(j = JVal.null : Bool)

/-- The `bookmark_properties` states a constructed message can hold: absent,
or a value that is neither a bare string/bytes (the constructor wraps those)
nor a truthy non-list (the constructor raises). -/
def bpOK : Option JVal → Bool
  | none => true
  | some (.str _) => false
  | some (.pbytes _) => false
  | some .null => false
  | some j => !(jtruthy j && !j.isArr)

/-- `m` is a possible result of running a variant constructor: its field
states are reachable through `__init__`. -/
def Constructible : Message → Bool
  | .record _ _ ver te => optNotNull ver && teOK te
  | .schema _ _ _ bp => bpOK bp
  | .state _ => true
  | .activate _ _ => true
  | .batch _ _ fmt comp bs te => jtruthy fmt && optNotNull comp && optNotNull bs && teOK te

def JVal.isBytes : JVal → Bool
  | .pbytes _ => true
  | _ => false

/-- The `time_extracted` arguments on which the RECORD/BATCH constructors
succeed: absent, an aware datetime, or a falsy value. -/
def teCtorOK : Option TimeVal → Bool
  | none => true
  | some (.dt naive _) => !naive
  | some (.raw j) => !jtruthy j

/-- What re-parsing does to a stored `time_extracted`: a forwarded falsy raw
value was omitted on the wire, so it comes back absent. -/
def teC : Option TimeVal → Option TimeVal
  | some (.raw _) => none
  | x => x

/-- What re-parsing does to a stored `bookmark_properties`: a falsy value was
omitted on the wire, so it comes back absent. -/
def bpC : Option JVal → Option JVal
  | some j => if jtruthy j then some j else none
  | none => none

/-- The message produced by parsing a message's own canonical mapping:
identical up to the collapse of canonically-absent optional fields. -/
def collapse : Message → Message
  | .record st rc ver te => .record st rc ver (teC te)
  | .schema st sch kp bp => .schema st sch kp (bpC bp)
  | .state v => .state v
  | .activate st ver => .activate st ver
  | .batch st fp fmt comp bs te => .batch st fp fmt comp bs (teC te)

/-! ## Encoder identity on JSON-native values -/

theorem exceptBindOk {α β ε : Type} (a : α) (f : α → Except ε β) :
    (Except.ok (ε := ε) a >>= f) = f a := rfl

theorem exceptBindErr {α β ε : Type} (e : ε) (f : α → Except ε β) :
    (Except.error (α := α) e >>= f) = Except.error (α := β) e := rfl

mutual

theorem encV_id : ∀ v : JVal, wfV v = true → encV v = Except.ok v
  | .null => fun _ => rfl
  | .bool _ => fun _ => rfl
  | .int n => fun h => by simp [wfV] at h; simp [encV, h]
  | .float _ => fun _ => rfl
  | .dec _ => fun h => by simp [wfV] at h
  | .str _ => fun _ => rfl
  | .pbytes _ => fun h => by simp [wfV] at h
  | .arr l => fun h => by
      simp [wfV] at h
      simp [encV, encA_id l h]
  | .obj o => fun h => by
      simp [wfV] at h
      simp [encV, encO_id o h]

theorem encA_id : ∀ l : JArr, wfA l = true → encA l = Except.ok l
  | .nil => fun _ => rfl
  | .cons v tl => fun h => by
      simp [wfA] at h
      simp [encA, encV_id v h.1, encA_id tl h.2, exceptBindOk]

theorem encO_id : ∀ o : JObj, wfO o = true → encO o = Except.ok o
  | .onil => fun _ => rfl
  | .ocons k v tl => fun h => by
      simp [wfO] at h
      simp [encO, encV_id v h.1, encO_id tl h.2, exceptBindOk]

end

/-! ## Reflexivity of the canonical-mapping equality -/

mutual

theorem jeqb_refl : ∀ v : JVal, jeqb v v = true
  | .null => rfl
  | .bool b => by cases b <;> rfl
  | .int n => by simp [jeqb, numVal]
  | .float q => by simp [jeqb, numVal]
  | .dec q => by simp [jeqb, numVal]
  | .str s => by simp [jeqb]
  | .pbytes s => by simp [jeqb]
  | .arr l => by simp [jeqb, jeqbA_refl l]
  | .obj o => by simp [jeqb, jeqbO_refl o]

theorem jeqbA_refl : ∀ l : JArr, jeqbA l l = true
  | .nil => rfl
  | .cons v tl => by simp [jeqbA, jeqb_refl v, jeqbA_refl tl]

theorem jeqbO_refl : ∀ o : JObj, jeqbO o o = true
  | .onil => rfl
  | .ocons k v tl => by simp [jeqbO, jeqb_refl v, jeqbO_refl tl]

end

theorem msgEq_of_asdict_eq {a b : Message} (h : asdict a = asdict b) : msgEq a b = true := by
  unfold msgEq
  rw [h]
  exact jeqbO_refl (asdict b)

/-! ## Timestamp round trip -/

theorem digitChar_isDigit (d : Nat) (h : d < 10) : (Char.ofNat (48 + d)).isDigit = true := by
  interval_cases d <;> decide

theorem digitChar_toNat (d : Nat) (h : d < 10) : (Char.ofNat (48 + d)).toNat - 48 = d := by
  interval_cases d <;> decide

theorem tsAux_cons_digit (acc : Nat) (seen : Bool) (c : Char) (rest : List Char)
    (h : c.isDigit = true) :
    tsAux acc seen (c :: rest) = tsAux (acc * 10 + (c.toNat - 48)) true rest := by
  simp [tsAux, h]

theorem tsAux_natDigitsAux (f : Nat) : ∀ n acc seen rest, n < f →
    tsAux acc seen (natDigitsAux f n ++ rest) =
      tsAux (acc * 10 ^ (natDigitsAux f n).length + n) true rest := by
  induction f with
  | zero =>
    intro n _ _ _ h
    omega
  | succ f ih =>
    intro n acc seen rest hn
    by_cases h10 : n < 10
    · simp only [natDigitsAux, if_pos h10, List.singleton_append]
      rw [tsAux_cons_digit _ _ _ _ (digitChar_isDigit n h10), digitChar_toNat n h10]
      simp
    · simp only [natDigitsAux, if_neg h10]
      have hd : n % 10 < 10 := Nat.mod_lt _ (by norm_num)
      rw [List.append_assoc, ih (n / 10) acc seen _ (by omega), List.singleton_append,
        tsAux_cons_digit _ _ _ _ (digitChar_isDigit _ hd), digitChar_toNat _ hd]
      congr 1
      rw [List.length_append, List.length_singleton, pow_succ]
      calc (acc * 10 ^ (natDigitsAux f (n / 10)).length + n / 10) * 10 + n % 10
          = acc * (10 ^ (natDigitsAux f (n / 10)).length * 10) + (10 * (n / 10) + n % 10) := by
            ring
        _ = acc * (10 ^ (natDigitsAux f (n / 10)).length * 10) + n := by
            rw [Nat.div_add_mod]

/-- The modelled parser accepts the modelled renderer's exact output, as an
aware timestamp. -/
theorem ciso8601_parse_strftime (n : Nat) : ciso8601_parse (strftime n) = some (.dt false n) := by
  unfold ciso8601_parse strftime natDigits
  rw [show (String.mk (natDigitsAux (n + 1) n ++ ['Z'])).data = natDigitsAux (n + 1) n ++ ['Z']
    from rfl]
  rw [tsAux_natDigitsAux (n + 1) n 0 false ['Z'] (Nat.lt_succ_self n)]
  have hZ : ('Z'.isDigit) = false := by decide
  simp [tsAux, hZ]

/-- A rendered timestamp is a nonempty, hence truthy, string. -/
theorem strftime_ne_empty (n : Nat) : (strftime n != "") = true := by
  rw [bne_iff_ne]
  intro h
  have hd : natDigits n ++ ['Z'] = [] := congrArg String.data h
  simp at hd

theorem jtruthy_strftime (n : Nat) : jtruthy (.str (strftime n)) = true := by
  simp [jtruthy, strftime_ne_empty]

/-! ## Parsing a message's own canonical mapping -/

theorem wfO_oappend : ∀ a b : JObj, wfO (oappend a b) = (wfO a && wfO b)
  | .onil, b => by simp [oappend, wfO]
  | .ocons k v tl, b => by
    simp [oappend, wfO, wfO_oappend tl b, Bool.and_assoc]

theorem wfO_optPart (k : String) (v : Option JVal) (h : wfOpt v = true) :
    wfO (optPart k v) = true := by
  cases v <;> simp_all [optPart, wfO, wfOpt]

theorem wfO_tePart (te : Option TimeVal) : wfO (tePart te) = true := by
  rcases te with _ | (⟨n, m⟩ | j) <;> simp [tePart, wfO, wfV]

theorem wfO_bpPart (bp : Option JVal) (h : wfOpt bp = true) : wfO (bpPart bp) = true := by
  cases bp with
  | none => simp [bpPart, wfO]
  | some j =>
    by_cases hj : jtruthy j = true <;> simp_all [bpPart, wfO, wfOpt]

/-- The canonical mapping of a payload-well-formed message is JSON-native. -/
theorem wfMsg_asdict (m : Message) (hw : wfMsg m = true) : wfO (asdict m) = true := by
  cases m with
  | record st rc ver te =>
    simp [wfMsg] at hw
    obtain ⟨⟨h1, h2⟩, h3⟩ := hw
    simp [asdict, wfO, wfV, wfO_oappend, h1, h2, verPart,
      wfO_optPart "version" ver h3, wfO_tePart te]
  | schema st sch kp bp =>
    simp [wfMsg] at hw
    obtain ⟨⟨⟨h1, h2⟩, h3⟩, h4⟩ := hw
    simp [asdict, wfO, wfV, h1, h2, h3, wfO_bpPart bp h4]
  | state v =>
    simp [wfMsg] at hw
    simp [asdict, wfO, wfV, hw]
  | activate st ver =>
    simp [wfMsg] at hw
    simp [asdict, wfO, wfV, hw.1, hw.2]
  | batch st fp fmt comp bs te =>
    simp [wfMsg] at hw
    obtain ⟨⟨⟨⟨h1, h2⟩, h3⟩, h4⟩, h5⟩ := hw
    simp [asdict, wfO, wfV, wfO_oappend, h1, h2, h3,
      wfO_optPart "compression" comp h4, wfO_optPart "batch_size" bs h5,
      wfO_tePart te]

theorem bpOK_props (j : JVal) (h : bpOK (some j) = true) :
    j.isStr = false ∧ j.isBytes = false ∧ j ≠ JVal.null ∧
      (jtruthy j = true → j.isArr = true) := by
  cases j <;> simp_all [bpOK, JVal.isStr, JVal.isBytes, jtruthy, JVal.isArr]

theorem normBp_id (j : JVal) (h1 : j.isStr = false) (h2 : j.isBytes = false) :
    normBp (some j) = some j := by
  cases j <;> simp_all [normBp, JVal.isStr, JVal.isBytes]

theorem tePart_teC (te : Option TimeVal) : tePart (teC te) = tePart te := by
  rcases te with _ | (⟨n, k⟩ | j) <;> simp [teC, tePart]

theorem bpPart_bpC (bp : Option JVal) : bpPart (bpC bp) = bpPart bp := by
  cases bp with
  | none => rfl
  | some j => by_cases hj : jtruthy j = true <;> simp [bpC, bpPart, hj]

/-- Collapsing canonically-absent optional fields does not change the
canonical mapping. -/
theorem asdict_collapse (m : Message) : asdict (collapse m) = asdict m := by
  cases m <;> simp [collapse, asdict, tePart_teC, bpPart_bpC]

theorem parse_asdict_record (st rc : JVal) (ver : Option JVal) (te : Option TimeVal)
    (hver : optNotNull ver = true) (hte : teOK te = true) :
    parse_message (asdict (.record st rc ver te)) =
      (.ok (some (.record st rc ver (teC te))), 0) := by
  have hver' : ∀ v, ver = some v → ¬(v = JVal.null) := by
    intro v hv
    subst hv
    simpa [optNotNull] using hver
  rcases te with _ | (⟨naive, k⟩ | j)
  · rcases ver with _ | v
    · simp [parse_message, asdict, verPart, optPart, tePart, oappend, reqKey, olookup,
        procTime, pyGet, RecordMessage, teC, exceptBindOk]
    · simp [parse_message, asdict, verPart, optPart, tePart, oappend, reqKey, olookup,
        procTime, pyGet, RecordMessage, teC, exceptBindOk, hver' v rfl]
  · have hnv : naive = false := by simpa [teOK] using hte
    subst hnv
    rcases ver with _ | v
    · simp [parse_message, asdict, verPart, optPart, tePart, oappend, reqKey, olookup,
        procTime, pyGet, RecordMessage, teC, exceptBindOk,
        jtruthy_strftime, ciso8601_parse_strftime]
    · simp [parse_message, asdict, verPart, optPart, tePart, oappend, reqKey, olookup,
        procTime, pyGet, RecordMessage, teC, exceptBindOk,
        jtruthy_strftime, ciso8601_parse_strftime, hver' v rfl]
  · simp [teOK] at hte
    rcases ver with _ | v
    · simp [parse_message, asdict, verPart, optPart, tePart, oappend, reqKey, olookup,
        procTime, pyGet, RecordMessage, teC, exceptBindOk]
    · simp [parse_message, asdict, verPart, optPart, tePart, oappend, reqKey, olookup,
        procTime, pyGet, RecordMessage, teC, exceptBindOk, hver' v rfl]

theorem parse_asdict_schema (st sch kp : JVal) (bp : Option JVal) (hbp : bpOK bp = true) :
    parse_message (asdict (.schema st sch kp bp)) =
      (.ok (some (.schema st sch kp (bpC bp))), 0) := by
  cases bp with
  | none =>
    simp [parse_message, asdict, bpPart, reqKey, olookup, procTime, pyGet,
      SchemaMessage, normBp, bpReject, bpC, exceptBindOk]
  | some j =>
    obtain ⟨h1, h2, h3, h4⟩ := bpOK_props j hbp
    by_cases hj : jtruthy j = true
    · simp [parse_message, asdict, bpPart, hj, reqKey, olookup, procTime, pyGet,
        SchemaMessage, normBp_id j h1 h2, bpReject, h4 hj, bpC, h3, exceptBindOk]
    · simp [parse_message, asdict, bpPart, hj, reqKey, olookup, procTime, pyGet,
        SchemaMessage, normBp, bpReject, bpC, exceptBindOk]

theorem parse_asdict_state (v : JVal) :
    parse_message (asdict (.state v)) = (.ok (some (.state v)), 0) := by
  simp [parse_message, asdict, reqKey, olookup, StateMessage, exceptBindOk]

theorem parse_asdict_activate (st ver : JVal) :
    parse_message (asdict (.activate st ver)) = (.ok (some (.activate st ver)), 0) := by
  simp [parse_message, asdict, reqKey, olookup, ActivateVersionMessage, exceptBindOk]

theorem parse_asdict_batch (st fp fmt : JVal) (comp bs : Option JVal) (te : Option TimeVal)
    (hfmt : jtruthy fmt = true) (hcomp : optNotNull comp = true) (hbs : optNotNull bs = true)
    (hte : teOK te = true) :
    parse_message (asdict (.batch st fp fmt comp bs te)) =
      (.ok (some (.batch st fp fmt comp bs (teC te))), 0) := by
  have hcv : ∀ v, comp = some v → ¬(v = JVal.null) := by
    intro v hv
    subst hv
    simpa [optNotNull] using hcomp
  have hbv : ∀ v, bs = some v → ¬(v = JVal.null) := by
    intro v hv
    subst hv
    simpa [optNotNull] using hbs
  rcases te with _ | (⟨naive, k⟩ | j)
  · rcases comp with _ | cv
    · rcases bs with _ | bv
      · simp [parse_message, asdict, optPart, tePart, oappend, reqKey, olookup, procTime,
          pyGet, BatchMessage, teC, exceptBindOk, hfmt]
      · simp [parse_message, asdict, optPart, tePart, oappend, reqKey, olookup, procTime,
          pyGet, BatchMessage, teC, exceptBindOk, hfmt, hbv bv rfl]
    · rcases bs with _ | bv
      · simp [parse_message, asdict, optPart, tePart, oappend, reqKey, olookup, procTime,
          pyGet, BatchMessage, teC, exceptBindOk, hfmt, hcv cv rfl]
      · simp [parse_message, asdict, optPart, tePart, oappend, reqKey, olookup, procTime,
          pyGet, BatchMessage, teC, exceptBindOk, hfmt, hcv cv rfl, hbv bv rfl]
  · have hnv : naive = false := by simpa [teOK] using hte
    subst hnv
    rcases comp with _ | cv
    · rcases bs with _ | bv
      · simp [parse_message, asdict, optPart, tePart, oappend, reqKey, olookup, procTime,
          pyGet, BatchMessage, teC, exceptBindOk, hfmt,
          jtruthy_strftime, ciso8601_parse_strftime]
      · simp [parse_message, asdict, optPart, tePart, oappend, reqKey, olookup, procTime,
          pyGet, BatchMessage, teC, exceptBindOk, hfmt,
          jtruthy_strftime, ciso8601_parse_strftime, hbv bv rfl]
    · rcases bs with _ | bv
      · simp [parse_message, asdict, optPart, tePart, oappend, reqKey, olookup, procTime,
          pyGet, BatchMessage, teC, exceptBindOk, hfmt,
          jtruthy_strftime, ciso8601_parse_strftime, hcv cv rfl]
      · simp [parse_message, asdict, optPart, tePart, oappend, reqKey, olookup, procTime,
          pyGet, BatchMessage, teC, exceptBindOk, hfmt,
          jtruthy_strftime, ciso8601_parse_strftime, hcv cv rfl, hbv bv rfl]
  · simp [teOK] at hte
    rcases comp with _ | cv
    · rcases bs with _ | bv
      · simp [parse_message, asdict, optPart, tePart, oappend, reqKey, olookup, procTime,
          pyGet, BatchMessage, teC, exceptBindOk, hfmt]
      · simp [parse_message, asdict, optPart, tePart, oappend, reqKey, olookup, procTime,
          pyGet, BatchMessage, teC, exceptBindOk, hfmt, hbv bv rfl]
    · rcases bs with _ | bv
      · simp [parse_message, asdict, optPart, tePart, oappend, reqKey, olookup, procTime,
          pyGet, BatchMessage, teC, exceptBindOk, hfmt, hcv cv rfl]
      · simp [parse_message, asdict, optPart, tePart, oappend, reqKey, olookup, procTime,
          pyGet, BatchMessage, teC, exceptBindOk, hfmt, hcv cv rfl, hbv bv rfl]

/-! ## Claim theorems -/

/-- C1 (counterexample): constructing a SCHEMA message whose `key_properties`
is the bare string `"id"` does not fail — it produces a `SchemaMessage`
storing the bare string, contradicting the claim that such a construction
fails with a validation error. -/
theorem C1_counterexample :
    SchemaMessage (.str "s") (.obj .onil) (.str "id") none =
      .ok (.schema (.str "s") (.obj .onil) (.str "id") none) := rfl

/-- C1 (amended): `SchemaMessage.__init__` performs no validation of
`key_properties` at all: for every `key_properties` value (bare strings
included) construction succeeds and stores the value unchanged. -/
theorem C1_amended_no_keyprops_validation (st sch kp : JVal) :
    SchemaMessage st sch kp none = .ok (.schema st sch kp none) := rfl

/-- C4: for every JSON object whose `type` field is present but is none of
the five known discriminators, `parse_message` returns the distinguished
no-result outcome (`None`) with no exception and no warning. -/
theorem C4_unknown_type_returns_none (o : JObj) (t : JVal)
    (hty : olookup "type" o = some t)
    (h1 : t ≠ .str "RECORD") (h2 : t ≠ .str "SCHEMA") (h3 : t ≠ .str "STATE")
    (h4 : t ≠ .str "ACTIVATE_VERSION") (h5 : t ≠ .str "BATCH") :
    parse_message o = (Except.ok none, 0) := by
  unfold parse_message
  simp [reqKey, hty, h1, h2, h3, h4, h5]

/-- C4 (witness): `parse('{"type":"FUTURE_MSG","x":1}')` returns no message. -/
theorem C4_witness :
    parse_message (.ocons "type" (.str "FUTURE_MSG") (.ocons "x" (.int 1) .onil)) =
      (Except.ok none, 0) :=
  C4_unknown_type_returns_none _ (.str "FUTURE_MSG") rfl
    (by decide) (by decide) (by decide) (by decide) (by decide)

/-- C7: every optional field that is absent (RECORD's `version` and
`time_extracted`; SCHEMA's `bookmark_properties`; BATCH's `compression`,
`batch_size` and `time_extracted`) is omitted entirely from the canonical
mapping: the key does not appear at all (hence in particular not with a
null value). -/
theorem C7_absent_optional_fields_omitted :
    (∀ st rc te, olookup "version" (asdict (.record st rc none te)) = none) ∧
    (∀ st rc ver, olookup "time_extracted" (asdict (.record st rc ver none)) = none) ∧
    (∀ st sch kp, olookup "bookmark_properties" (asdict (.schema st sch kp none)) = none) ∧
    (∀ st fp fmt bs te, olookup "compression" (asdict (.batch st fp fmt none bs te)) = none) ∧
    (∀ st fp fmt comp te, olookup "batch_size" (asdict (.batch st fp fmt comp none te)) = none) ∧
    (∀ st fp fmt comp bs, olookup "time_extracted" (asdict (.batch st fp fmt comp bs none)) = none) := by
  refine ⟨?_, ?_, ?_, ?_, ?_, ?_⟩
  · intro st rc te
    rcases te with _ | (⟨n, m⟩ | j) <;>
      simp [asdict, verPart, optPart, tePart, oappend, olookup]
  · intro st rc ver
    rcases ver with _ | v <;>
      simp [asdict, verPart, optPart, tePart, oappend, olookup]
  · intro st sch kp
    simp [asdict, bpPart, olookup]
  · intro st fp fmt bs te
    rcases bs with _ | v <;> rcases te with _ | (⟨n, m⟩ | j) <;>
      simp [asdict, optPart, tePart, oappend, olookup]
  · intro st fp fmt comp te
    rcases comp with _ | v <;> rcases te with _ | (⟨n, m⟩ | j) <;>
      simp [asdict, optPart, tePart, oappend, olookup]
  · intro st fp fmt comp bs
    rcases comp with _ | v <;> rcases bs with _ | w <;>
      simp [asdict, optPart, tePart, oappend, olookup]

/-- C5 (counterexample): constructing a RECORD with `time_extracted` equal to
the empty string — a value with no timezone information — succeeds (the
truthiness guard `if time_extracted and not time_extracted.tzinfo` is
short-circuited by any falsy value), contradicting the claim that
construction succeeds only when `time_extracted` is absent or aware. -/
theorem C5_counterexample :
    RecordMessage (.str "s") (.obj .onil) none (some (.raw (.str ""))) =
      .ok (.record (.str "s") (.obj .onil) none (some (.raw (.str "")))) := rfl

/-- C5 (amended): a timezone-naive datetime `time_extracted` fails RECORD and
BATCH construction with `ValueError`; construction succeeds exactly when
`time_extracted` is absent, a timezone-aware datetime, or a falsy
non-datetime value (such as the empty string), which is stored as-is. -/
theorem C5_amended_naive_rejected (st rc fp : JVal) (ver comp bs : Option JVal)
    (te : Option TimeVal) :
    (∀ k, RecordMessage st rc ver (some (.dt true k)) = .error .naiveTime ∧
          BatchMessage st fp none comp bs (some (.dt true k)) = .error .naiveTime) ∧
    ((∃ m, RecordMessage st rc ver te = .ok m) ↔ teCtorOK te = true) ∧
    ((∃ m, BatchMessage st fp none comp bs te = .ok m) ↔ teCtorOK te = true) := by
  refine ⟨fun k => ⟨rfl, rfl⟩, ?_, ?_⟩ <;>
    rcases te with _ | (⟨n, m⟩ | j) <;>
      simp [RecordMessage, BatchMessage, teCtorOK] <;>
      first
        | (cases n <;> simp)
        | (by_cases hj : jtruthy j = true <;> simp [hj])

/-- C9: `write_schema` normalizes a bare string or bytes `key_properties`
into a one-element list before constructing the message, raises for every
other non-list value, and consequently every `SchemaMessage` it produces has
a list as `key_properties`. -/
theorem C9_write_schema_normalizes (stn sch : JVal) (bp al : Option JVal) :
    (∀ s, write_schema stn sch (.str s) bp al =
        SchemaMessage (streamOr al stn) sch (.arr (.cons (.str s) .nil)) bp) ∧
    (∀ b, write_schema stn sch (.pbytes b) bp al =
        SchemaMessage (streamOr al stn) sch (.arr (.cons (.pbytes b) .nil)) bp) ∧
    (∀ kp, kp.isStr = false → kp.isBytes = false → kp.isArr = false →
        write_schema stn sch kp bp al = .error .badKeyProps) ∧
    (∀ kp m, write_schema stn sch kp bp al = .ok m →
        ∃ st' kp' bp', m = .schema st' sch kp' bp' ∧ kp'.isArr = true) := by
  refine ⟨fun s => rfl, fun b => rfl, ?_, ?_⟩
  · intro kp h1 h2 h3
    cases kp <;> simp_all [JVal.isStr, JVal.isBytes, JVal.isArr, write_schema]
  · intro kp m h
    have key : ∀ st0 kp0 bp0, SchemaMessage st0 sch (.arr kp0) bp0 = .ok m →
        ∃ st' kp' bp', m = .schema st' sch kp' bp' ∧ kp'.isArr = true := by
      intro st0 kp0 bp0 hok
      simp only [SchemaMessage] at hok
      split at hok
      · exact absurd hok (by simp)
      · exact ⟨st0, .arr kp0, normBp bp0, by simpa using hok.symm, rfl⟩
    cases kp <;> simp [write_schema] at h <;> exact key _ _ _ h

/-- C9 (witness): `write_schema` with an integer `key_properties` raises. -/
theorem C9_witness :
    write_schema (.str "s") (.obj .onil) (.int 5) none none = .error .badKeyProps :=
  (C9_write_schema_normalizes (.str "s") (.obj .onil) none none).2.2.1 (.int 5) rfl rfl rfl

/-- C3 (counterexample): a RECORD wire object whose `time_extracted` is the
empty string — a present string value that is not parseable as a timestamp —
produces no warning at all (the truthiness guard skips the parse attempt),
and the value is stored as-is rather than dropped; this contradicts the claim
that every present-but-unparseable `time_extracted` string yields exactly one
warning. -/
theorem C3_counterexample :
    parse_message (.ocons "type" (.str "RECORD") (.ocons "stream" (.str "s")
        (.ocons "record" (.obj .onil) (.ocons "time_extracted" (.str "") .onil)))) =
      (.ok (some (.record (.str "s") (.obj .onil) none (some (.raw (.str ""))))), 0) := rfl

/-- C3 (amended): for every RECORD or BATCH wire object whose
`time_extracted` is present as a truthy (non-empty) string that is not
parseable as a timestamp, `parse_message` does not fail: it emits exactly one
warning through the logging collaborator and returns the otherwise-valid
message with `time_extracted` absent.  (For the empty string no warning is
emitted and the value is forwarded unchanged, though it is still omitted from
the canonical mapping.) -/
theorem C3_amended_unparseable_ts_one_warning (o : JObj) (s : String)
    (hte : pyGet o "time_extracted" = some (.str s)) (hs : s ≠ "")
    (hparse : ciso8601_parse s = none) :
    (∀ st rc, olookup "type" o = some (.str "RECORD") → olookup "stream" o = some st →
      olookup "record" o = some rc →
      parse_message o = (.ok (some (.record st rc (pyGet o "version") none)), 1)) ∧
    (∀ st fp ff, olookup "type" o = some (.str "BATCH") → olookup "stream" o = some st →
      olookup "filepath" o = some fp → olookup "format" o = some ff → jtruthy ff = true →
      parse_message o =
        (.ok (some (.batch st fp ff (pyGet o "compression") (pyGet o "batch_size") none)), 1)) := by
  have hpt : procTime o = (none, 1) := by
    simp [procTime, hte, jtruthy, hs, hparse]
  constructor
  · intro st rc hty hst hrc
    unfold parse_message
    simp [reqKey, hty, hst, hrc, hpt, RecordMessage, exceptBindOk]
  · intro st fp ff hty hst hfp hff htr
    unfold parse_message
    simp [reqKey, hty, hst, hfp, hff, hpt, BatchMessage, htr, exceptBindOk]

/-- C3 (witness): `parse('{"type":"RECORD","stream":"s","record":{},
"time_extracted":"not-a-date"}')` returns a valid RECORD with
`time_extracted` absent and exactly one logged warning. -/
theorem C3_witness :
    parse_message (.ocons "type" (.str "RECORD") (.ocons "stream" (.str "s")
        (.ocons "record" (.obj .onil) (.ocons "time_extracted" (.str "not-a-date") .onil)))) =
      (.ok (some (.record (.str "s") (.obj .onil) none none)), 1) :=
  (C3_amended_unparseable_ts_one_warning
    (.ocons "type" (.str "RECORD") (.ocons "stream" (.str "s")
      (.ocons "record" (.obj .onil) (.ocons "time_extracted" (.str "not-a-date") .onil))))
    "not-a-date" rfl (by decide) rfl).1
    (.str "s") (.obj .onil) rfl rfl rfl

/-- C8: for every JSON object input, an absent `type` key is a fatal failure
naming `type`, and for each recognized type an absent required field
(`stream`/`record` for RECORD; `stream`/`schema`/`key_properties` for SCHEMA;
`value` for STATE; `stream`/`version` for ACTIVATE_VERSION;
`stream`/`filepath`/`format` for BATCH) makes `parse_message` fail with an
error naming a missing field and carrying the offending object. -/
theorem C8_missing_required_field (o : JObj) :
    (olookup "type" o = none → parse_message o = (.error (.missingKey "type" o), 0)) ∧
    (olookup "type" o = some (.str "RECORD") →
      (olookup "stream" o = none ∨ olookup "record" o = none) →
      ∃ k, (k = "stream" ∨ k = "record") ∧ olookup k o = none ∧
        (parse_message o).1 = .error (.missingKey k o)) ∧
    (olookup "type" o = some (.str "SCHEMA") →
      (olookup "stream" o = none ∨ olookup "schema" o = none ∨
        olookup "key_properties" o = none) →
      ∃ k, (k = "stream" ∨ k = "schema" ∨ k = "key_properties") ∧ olookup k o = none ∧
        (parse_message o).1 = .error (.missingKey k o)) ∧
    (olookup "type" o = some (.str "STATE") → olookup "value" o = none →
      (parse_message o).1 = .error (.missingKey "value" o)) ∧
    (olookup "type" o = some (.str "ACTIVATE_VERSION") →
      (olookup "stream" o = none ∨ olookup "version" o = none) →
      ∃ k, (k = "stream" ∨ k = "version") ∧ olookup k o = none ∧
        (parse_message o).1 = .error (.missingKey k o)) ∧
    (olookup "type" o = some (.str "BATCH") →
      (olookup "stream" o = none ∨ olookup "filepath" o = none ∨
        olookup "format" o = none) →
      ∃ k, (k = "stream" ∨ k = "filepath" ∨ k = "format") ∧ olookup k o = none ∧
        (parse_message o).1 = .error (.missingKey k o)) := by
  refine ⟨?_, ?_, ?_, ?_, ?_, ?_⟩
  · intro hty
    unfold parse_message
    simp [reqKey, hty]
  · intro hty hmiss
    by_cases hst : olookup "stream" o = none
    · refine ⟨"stream", Or.inl rfl, hst, ?_⟩
      unfold parse_message
      simp [reqKey, hty, hst, exceptBindErr]
    · obtain ⟨st, hst'⟩ := Option.ne_none_iff_exists'.mp hst
      rcases hmiss with h | h
      · exact absurd h hst
      refine ⟨"record", Or.inr rfl, h, ?_⟩
      unfold parse_message
      simp [reqKey, hty, hst', h, exceptBindOk, exceptBindErr]
  · intro hty hmiss
    by_cases hst : olookup "stream" o = none
    · refine ⟨"stream", Or.inl rfl, hst, ?_⟩
      unfold parse_message
      simp [reqKey, hty, hst, exceptBindErr]
    · obtain ⟨st, hst'⟩ := Option.ne_none_iff_exists'.mp hst
      by_cases hsc : olookup "schema" o = none
      · refine ⟨"schema", Or.inr (Or.inl rfl), hsc, ?_⟩
        unfold parse_message
        simp [reqKey, hty, hst', hsc, exceptBindOk, exceptBindErr]
      · obtain ⟨sc, hsc'⟩ := Option.ne_none_iff_exists'.mp hsc
        rcases hmiss with h | h | h
        · exact absurd h hst
        · exact absurd h hsc
        refine ⟨"key_properties", Or.inr (Or.inr rfl), h, ?_⟩
        unfold parse_message
        simp [reqKey, hty, hst', hsc', h, exceptBindOk, exceptBindErr]
  · intro hty hv
    unfold parse_message
    simp [reqKey, hty, hv, exceptBindErr]
  · intro hty hmiss
    by_cases hst : olookup "stream" o = none
    · refine ⟨"stream", Or.inl rfl, hst, ?_⟩
      unfold parse_message
      simp [reqKey, hty, hst, exceptBindErr]
    · obtain ⟨st, hst'⟩ := Option.ne_none_iff_exists'.mp hst
      rcases hmiss with h | h
      · exact absurd h hst
      refine ⟨"version", Or.inr rfl, h, ?_⟩
      unfold parse_message
      simp [reqKey, hty, hst', h, exceptBindOk, exceptBindErr]
  · intro hty hmiss
    by_cases hst : olookup "stream" o = none
    · refine ⟨"stream", Or.inl rfl, hst, ?_⟩
      unfold parse_message
      simp [reqKey, hty, hst, exceptBindErr]
    · obtain ⟨st, hst'⟩ := Option.ne_none_iff_exists'.mp hst
      by_cases hfp : olookup "filepath" o = none
      · refine ⟨"filepath", Or.inr (Or.inl rfl), hfp, ?_⟩
        unfold parse_message
        simp [reqKey, hty, hst', hfp, exceptBindOk, exceptBindErr]
      · obtain ⟨fp, hfp'⟩ := Option.ne_none_iff_exists'.mp hfp
        rcases hmiss with h | h | h
        · exact absurd h hst
        · exact absurd h hfp
        refine ⟨"format", Or.inr (Or.inr rfl), h, ?_⟩
        unfold parse_message
        simp [reqKey, hty, hst', hfp', h, exceptBindOk, exceptBindErr]

/-- C8 (witness): `parse('{"type":"SCHEMA","stream":"s"}')` fails with a
missing-field error naming `schema` (here: some required SCHEMA field) and
carrying the offending object. -/
theorem C8_witness :
    ∃ k, (k = "stream" ∨ k = "schema" ∨ k = "key_properties") ∧
      olookup k (JObj.ocons "type" (.str "SCHEMA") (.ocons "stream" (.str "s") .onil)) = none ∧
      (parse_message (.ocons "type" (.str "SCHEMA") (.ocons "stream" (.str "s") .onil))).1 =
        .error (.missingKey k (.ocons "type" (.str "SCHEMA") (.ocons "stream" (.str "s") .onil))) :=
  (C8_missing_required_field _).2.2.1 rfl (Or.inr (Or.inl rfl))

/-- C10: constructing a `BatchMessage` with a falsy `file_format` (absent,
null, or the empty string) stores the format `"jsonl"`; consequently parsing
a BATCH wire object whose `format` value is the empty string yields a message
whose format is `"jsonl"`, not `""`. -/
theorem C10_falsy_format_defaults_jsonl :
    (∀ st fp comp bs,
      BatchMessage st fp none comp bs none = .ok (.batch st fp (.str "jsonl") comp bs none) ∧
      BatchMessage st fp (some .null) comp bs none =
        .ok (.batch st fp (.str "jsonl") comp bs none) ∧
      BatchMessage st fp (some (.str "")) comp bs none =
        .ok (.batch st fp (.str "jsonl") comp bs none)) ∧
    (∀ o st fp, olookup "type" o = some (.str "BATCH") → olookup "stream" o = some st →
      olookup "filepath" o = some fp → olookup "format" o = some (.str "") →
      pyGet o "time_extracted" = none →
      parse_message o =
        (.ok (some (.batch st fp (.str "jsonl") (pyGet o "compression")
          (pyGet o "batch_size") none)), 0)) := by
  constructor
  · intro st fp comp bs
    refine ⟨rfl, rfl, rfl⟩
  · intro o st fp hty hst hfp hff hte
    have hpt : procTime o = (none, 0) := by simp [procTime, hte]
    unfold parse_message
    simp [reqKey, hty, hst, hfp, hff, hpt, BatchMessage, jtruthy, exceptBindOk]

theorem mkRat_half_eq : mkRat 1 2 = (1 / 2 : ℚ) := by
  rw [Rat.mkRat_eq_div]
  norm_num

theorem mkRat_one_eq : mkRat 1 1 = (1 : ℚ) := by
  rw [Rat.mkRat_eq_div]
  norm_num

theorem mkRat_two_eq : mkRat 2 1 = (2 : ℚ) := by
  rw [Rat.mkRat_eq_div]
  norm_num

theorem rabs_eq_abs (q : ℚ) : rabs q = |q| := by
  unfold rabs
  rcases lt_or_le q 0 with h | h
  · rw [if_pos h, abs_of_neg h]
  · rw [if_neg (not_lt.mpr h), abs_of_nonneg h]

theorem pow2_eq_zpow (e : ℤ) : pow2 e = (2 : ℚ) ^ e := by
  unfold pow2
  by_cases h : 0 ≤ e
  · rw [if_pos h, Rat.mkRat_eq_div]
    have h1 : ((Int.ofNat (Nat.pow 2 e.toNat) : ℤ) : ℚ) = (2 : ℚ) ^ e.toNat := by
      norm_num [Nat.pow_eq]
    rw [h1]
    push_cast
    rw [div_one, ← zpow_natCast (2 : ℚ) e.toNat, Int.toNat_of_nonneg h]
  · rw [if_neg h, Rat.mkRat_eq_div]
    have h1 : ((Nat.pow 2 (-e).toNat : ℕ) : ℚ) = (2 : ℚ) ^ (-e).toNat := by
      norm_num [Nat.pow_eq]
    rw [h1]
    push_cast
    rw [one_div, ← zpow_natCast (2 : ℚ) (-e).toNat,
      Int.toNat_of_nonneg (by omega : (0 : ℤ) ≤ -e), ← zpow_neg, neg_neg]

theorem rhe_intCast (n : ℤ) : rhe ((n : ℚ)) = n := by
  have h1 : rfloor ((n : ℚ)) = n := by
    unfold rfloor
    simp [Rat.num_intCast, Rat.den_intCast]
  unfold rhe
  rw [h1, mkRat_half_eq]
  norm_num

theorem expUp_succ (f : Nat) (q : ℚ) :
    expUp (f + 1) q = if q < 2 then 0 else expUp f (q / 2) + 1 := by
  simp only [expUp, mkRat_two_eq]

theorem expUp_correct (f : Nat) : ∀ q : ℚ, 1 ≤ q → q < 2 ^ (f : ℤ) →
    0 ≤ expUp f q ∧ (2 : ℚ) ^ expUp f q ≤ q ∧ q < 2 ^ (expUp f q + 1) := by
  induction f with
  | zero =>
    intro q h1 h2
    norm_num at h2
    exact absurd h2 (not_lt.mpr h1)
  | succ f ih =>
    intro q h1 h2
    rw [expUp_succ]
    by_cases hlt : q < 2
    · rw [if_pos hlt]
      exact ⟨le_refl _, by simpa using h1, by simpa using hlt⟩
    · rw [if_neg hlt]
      have hq2 : (2 : ℚ) ≤ q := not_lt.mp hlt
      have h1' : 1 ≤ q / 2 := by
        rw [le_div_iff₀ (by norm_num : (0 : ℚ) < 2)]
        linarith
      have h2' : q / 2 < 2 ^ (f : ℤ) := by
        rw [div_lt_iff₀ (by norm_num : (0 : ℚ) < 2)]
        have hc : ((f : ℤ) + 1) = (((f + 1 : ℕ)) : ℤ) := by push_cast; ring
        calc q < 2 ^ (((f + 1 : ℕ)) : ℤ) := h2
          _ = 2 ^ (f : ℤ) * 2 := by
              rw [← hc, zpow_add_one₀ (by norm_num : (2 : ℚ) ≠ 0)]
      obtain ⟨he0, hle, hlt'⟩ := ih (q / 2) h1' h2'
      refine ⟨by omega, ?_, ?_⟩
      · rw [zpow_add_one₀ (by norm_num : (2 : ℚ) ≠ 0)]
        rw [le_div_iff₀ (by norm_num : (0 : ℚ) < 2)] at hle
        exact hle
      · rw [zpow_add_one₀ (by norm_num : (2 : ℚ) ≠ 0)]
        rw [div_lt_iff₀ (by norm_num : (0 : ℚ) < 2)] at hlt'
        exact hlt'

theorem two_zpow_53 : (2 : ℚ) ^ (53 : ℤ) = ((2 ^ 53 : ℤ) : ℚ) := by
  have h : (53 : ℤ) = ((53 : ℕ) : ℤ) := by norm_num
  rw [h, zpow_natCast]
  push_cast
  norm_num

/-- `float(n)` is exact on integers of magnitude at most `2 ^ 53`. -/
theorem float64_intCast_fixed (n : ℤ) (h0 : n ≠ 0) (hle : |n| ≤ 2 ^ 53) :
    float64 ((n : ℚ)) = (n : ℚ) := by
  have hne : ((n : ℚ)) ≠ 0 := Int.cast_ne_zero.mpr h0
  have habs : ((|n| : ℤ) : ℚ) = |(n : ℚ)| := by push_cast; ring
  have hA1 : (1 : ℚ) ≤ |(n : ℚ)| := by
    rw [← habs]
    exact_mod_cast Int.one_le_abs h0
  have hA53 : |(n : ℚ)| ≤ (2 : ℚ) ^ (53 : ℤ) := by
    rw [← habs, two_zpow_53]
    exact_mod_cast hle
  have hA2 : |(n : ℚ)| < 2 ^ ((1200 : ℕ) : ℤ) := by
    refine lt_of_le_of_lt hA53 ?_
    rw [zpow_natCast]
    have h53n : (2 : ℚ) ^ (53 : ℤ) = (2 : ℚ) ^ (53 : ℕ) := by
      rw [← zpow_natCast (2 : ℚ) 53]
      norm_num
    rw [h53n]
    exact pow_lt_pow_right₀ (by norm_num) (by norm_num)
  obtain ⟨he0, hle2, hlt2⟩ := expUp_correct 1200 _ hA1 hA2
  have hexp : exp2 |(n : ℚ)| = expUp 1200 |(n : ℚ)| := by
    unfold exp2
    rw [mkRat_one_eq, if_pos hA1]
  have he53 : expUp 1200 |(n : ℚ)| ≤ 53 := by
    have h2e : (2 : ℚ) ^ expUp 1200 |(n : ℚ)| ≤ 2 ^ (53 : ℤ) := le_trans hle2 hA53
    exact (zpow_le_zpow_iff_right₀ (by norm_num : (1 : ℚ) < 2)).mp h2e
  have main : ∀ e : ℤ, 0 ≤ e → e ≤ 53 → (2 : ℚ) ^ e ≤ |(n : ℚ)| →
      ((rhe (|(n : ℚ)| / 2 ^ (e - 52)) : ℤ) : ℚ) * 2 ^ (e - 52) = |(n : ℚ)| := by
    intro e _ heU hlow
    rcases lt_or_eq_of_le heU with he52 | he53'
    · have he52' : e ≤ 52 := by omega
      have hk : (((52 - e).toNat : ℤ)) = 52 - e := Int.toNat_of_nonneg (by omega)
      have hpow : ((2 : ℚ) ^ ((52 - e).toNat)) = (2 : ℚ) ^ ((52 : ℤ) - e) := by
        rw [← zpow_natCast (2 : ℚ) (52 - e).toNat, hk]
      have hzero : (52 : ℤ) - e + (e - 52) = 0 := by ring
      have hdiv : |(n : ℚ)| / 2 ^ (e - 52) = ((|n| * 2 ^ (52 - e).toNat : ℤ) : ℚ) := by
        rw [div_eq_iff (zpow_ne_zero _ (by norm_num : (2 : ℚ) ≠ 0))]
        push_cast
        rw [hpow, mul_assoc, ← zpow_add₀ (by norm_num : (2 : ℚ) ≠ 0), hzero, zpow_zero, mul_one]
      rw [hdiv, rhe_intCast]
      push_cast
      rw [hpow, mul_assoc, ← zpow_add₀ (by norm_num : (2 : ℚ) ≠ 0), hzero, zpow_zero, mul_one]
    · have ha53 : |(n : ℚ)| = (2 : ℚ) ^ (53 : ℤ) := le_antisymm hA53 (he53' ▸ hlow)
      rw [he53', ha53]
      rw [show (53 : ℤ) - 52 = 1 by norm_num, zpow_one]
      rw [show (2 : ℚ) ^ (53 : ℤ) / 2 = ((2 ^ 52 : ℤ) : ℚ) by rw [two_zpow_53]; push_cast; norm_num]
      rw [rhe_intCast]
      rw [two_zpow_53]
      push_cast
      norm_num
  simp only [float64, rabs_eq_abs, pow2_eq_zpow, if_neg hne, hexp]
  have hmain := main (expUp 1200 |(n : ℚ)|) he0 he53 hle2
  by_cases hn : (n : ℚ) < 0
  · rw [if_pos hn, neg_mul, hmain, ← habs]
    rw [show |n| = -n from abs_of_neg (by exact_mod_cast hn)]
    push_cast
    ring
  · rw [if_neg hn, hmain]
    exact abs_of_nonneg (not_lt.mp hn)

section
attribute [local semireducible] Rat.mul Rat.inv Rat.add Rat.sub

/-- C6 (counterexample): the decimal value `10 ^ 16 + 0.5` has a fractional
part, yet `format_message`'s `default` hook encodes it as the JSON *integer*
`10 ^ 16`: `float(Decimal('10000000000000000.5'))` rounds to the integral
double `1e16`, so the `float(obj).is_integer()` test fires and `int(obj)`
truncates.  This refutes the claimed "if and only if". -/
theorem C6_counterexample :
    defaultEnc (10 ^ 16 + 1 / 2) = .int (10 ^ 16) ∧ ((10 : ℚ) ^ 16 + 1 / 2).den ≠ 1 := by
  have hval : ((10 : ℚ) ^ 16 + 1 / 2) = mkRat 20000000000000001 2 := by
    rw [Rat.mkRat_eq_div]
    norm_num
  have hint : ((10 : ℤ) ^ 16) = 10000000000000000 := by norm_num
  rw [hval, hint]
  exact ⟨by decide, by decide⟩

/-- C6 (amended): the integer-versus-float choice follows the
double-precision approximation `float(d)` of the decimal value, not its exact
fractional part.  Within double precision the two agree: every decimal with
no fractional part and magnitude at most `2 ^ 53` encodes as the JSON integer
equal to it (so `10` encodes as `10`), and `10.5` encodes as the JSON number
`10.5`; but beyond it they differ: `10 ^ 16 + 0.5` encodes as the JSON
integer `10 ^ 16`. -/
theorem C6_amended_decimal_encoding :
    (∀ d : ℚ, d.den = 1 → |d| ≤ 2 ^ 53 → defaultEnc d = .int d.num) ∧
    defaultEnc 10 = .int 10 ∧
    defaultEnc (21 / 2) = .float (21 / 2) ∧
    defaultEnc (10 ^ 16 + 1 / 2) = .int (10 ^ 16) := by
  refine ⟨?_, ?_, ?_, ?_⟩
  · intro d hden h53
    by_cases h0 : d = 0
    · subst h0
      have hz : (0 : ℚ) = mkRat 0 1 := by
        rw [Rat.mkRat_eq_div]
        norm_num
      rw [hz]
      decide
    · have hd : ((d.num : ℚ)) = d := (Rat.den_eq_one_iff d).mp hden
      have hn0 : d.num ≠ 0 := by
        intro h
        apply h0
        rw [← hd, h]
        norm_num
      have habs : |d.num| ≤ 2 ^ 53 := by
        have h' := h53
        rw [← hd] at h'
        rw [← Int.cast_abs] at h'
        exact_mod_cast h'
      have hfix := float64_intCast_fixed d.num hn0 habs
      rw [hd] at hfix
      unfold defaultEnc
      rw [hfix, if_pos hden]
      unfold pyTrunc
      rw [hden]
      simp
  · have h10 : (10 : ℚ) = mkRat 10 1 := by
      rw [Rat.mkRat_eq_div]
      norm_num
    rw [h10]
    decide
  · have h212 : (21 / 2 : ℚ) = mkRat 21 2 := by
      rw [Rat.mkRat_eq_div]
      norm_num
    rw [h212]
    decide
  · have hval : ((10 : ℚ) ^ 16 + 1 / 2) = mkRat 20000000000000001 2 := by
      rw [Rat.mkRat_eq_div]
      norm_num
    have hint : ((10 : ℤ) ^ 16) = 10000000000000000 := by norm_num
    rw [hval, hint]
    decide

/-- C6 (witness): the amended statement at the concrete decimal `12`. -/
theorem C6_witness :
    (12 : ℚ).den = 1 ∧ |(12 : ℚ)| ≤ 2 ^ 53 ∧ defaultEnc 12 = .int (12 : ℚ).num :=
  ⟨by norm_num, by norm_num, C6_amended_decimal_encoding.1 12 (by norm_num) (by norm_num)⟩

end

/-- C2 (amended): for every constructible message whose payloads are
JSON-native (no `Decimal`, no `bytes`, integers inside the encoder's 64-bit
range), `parse_message ∘ format_message` succeeds with no warnings and
returns a message whose canonical mapping equals the original's, i.e. a
message equal to `m` under the structural equality the code defines. -/
theorem C2_amended_round_trip (m : Message)
    (hc : Constructible m = true) (hw : wfMsg m = true) :
    format_message m = .ok (asdict m) ∧
    parse_message (asdict m) = (.ok (some (collapse m)), 0) ∧
    msgEq (collapse m) m = true := by
  refine ⟨encO_id _ (wfMsg_asdict m hw), ?_, msgEq_of_asdict_eq (asdict_collapse m)⟩
  cases m with
  | record st rc ver te =>
    simp [Constructible] at hc
    exact parse_asdict_record st rc ver te hc.1 hc.2
  | schema st sch kp bp =>
    simp [Constructible] at hc
    exact parse_asdict_schema st sch kp bp hc
  | state v => exact parse_asdict_state v
  | activate st ver => exact parse_asdict_activate st ver
  | batch st fp fmt comp bs te =>
    simp [Constructible] at hc
    obtain ⟨⟨⟨h1, h2⟩, h3⟩, h4⟩ := hc
    exact parse_asdict_batch st fp fmt comp bs te h1 h2 h3 h4

/-- C2 (witness): the amended round trip at a concrete RECORD with a payload,
a version and no `time_extracted`. -/
theorem C2_witness :
    Constructible (.record (.str "s") (.obj (.ocons "a" (.int 3) .onil))
        (some (.int 0)) none) = true ∧
    wfMsg (.record (.str "s") (.obj (.ocons "a" (.int 3) .onil)) (some (.int 0)) none) = true ∧
    (format_message (.record (.str "s") (.obj (.ocons "a" (.int 3) .onil))
        (some (.int 0)) none) =
      .ok (asdict (.record (.str "s") (.obj (.ocons "a" (.int 3) .onil)) (some (.int 0)) none)) ∧
    parse_message (asdict (.record (.str "s") (.obj (.ocons "a" (.int 3) .onil))
        (some (.int 0)) none)) =
      (.ok (some (collapse (.record (.str "s") (.obj (.ocons "a" (.int 3) .onil))
        (some (.int 0)) none))), 0) ∧
    msgEq (collapse (.record (.str "s") (.obj (.ocons "a" (.int 3) .onil)) (some (.int 0)) none))
      (.record (.str "s") (.obj (.ocons "a" (.int 3) .onil)) (some (.int 0)) none) = true) :=
  ⟨by decide, by decide, C2_amended_round_trip _ (by decide) (by decide)⟩

section
attribute [local semireducible] Rat.mul Rat.inv Rat.add Rat.sub

/-- C2 (counterexample): the round trip is *not* the identity for every
constructible message.  A RECORD whose payload holds the decimal `1/10`
(Python `Decimal('0.1')`) is constructible, format and re-parse succeed, but
the parsed message holds the binary64 approximation
`3602879701896397/36028797018963968 ≠ 1/10`, so the canonical mappings (and
Python `==`, which compares the exact numeric values) differ. -/
theorem C2_counterexample :
    Constructible (.record (.str "s") (.obj (.ocons "a" (.dec (mkRat 1 10)) .onil))
        none none) = true ∧
    format_message (.record (.str "s") (.obj (.ocons "a" (.dec (mkRat 1 10)) .onil))
        none none) =
      .ok (.ocons "type" (.str "RECORD") (.ocons "stream" (.str "s") (.ocons "record"
        (.obj (.ocons "a" (.float (mkRat 3602879701896397 36028797018963968)) .onil)) .onil))) ∧
    parse_message (.ocons "type" (.str "RECORD") (.ocons "stream" (.str "s") (.ocons "record"
        (.obj (.ocons "a" (.float (mkRat 3602879701896397 36028797018963968)) .onil)) .onil))) =
      (.ok (some (.record (.str "s")
        (.obj (.ocons "a" (.float (mkRat 3602879701896397 36028797018963968)) .onil))
        none none)), 0) ∧
    msgEq
      (.record (.str "s")
        (.obj (.ocons "a" (.float (mkRat 3602879701896397 36028797018963968)) .onil)) none none)
      (.record (.str "s") (.obj (.ocons "a" (.dec (mkRat 1 10)) .onil)) none none) = false :=
  ⟨by decide, rfl, rfl, by decide⟩

end

/-- C10 (witness): parsing a concrete BATCH wire object whose `format` is the
empty string produces a message with format `"jsonl"`. -/
theorem C10_witness :
    parse_message (.ocons "type" (.str "BATCH") (.ocons "stream" (.str "s")
        (.ocons "filepath" (.str "f") (.ocons "format" (.str "") .onil)))) =
      (.ok (some (.batch (.str "s") (.str "f") (.str "jsonl") none none none)), 0) :=
  C10_falsy_format_defaults_jsonl.2 _ (.str "s") (.str "f") rfl rfl rfl rfl rfl

end Singer
